import Mathlib

/-!
# The `users` resource of node-backend-walkthrough

A shallow embedding of the migration (`db/migrations/20230217193940_create_users_table.js`),
the repository (`db/models/User.js`) and the router (`routers/userRouter.js`).

The repository and the router hold no state of their own: every function is one query against
the store behind the knex handle `db`.  The store is made explicit here as a value of type `Db`
that every operation receives and returns.  A query either resolves with a value or rejects with
a `StoreError`; a handler whose query rejects sends no response, because no handler catches.

What a chain of knex calls does to the store is not written in this repository: the definitions
in `Knex` state it, for the schema of `exports.up` (primary key `id`, unique `username`, required
`username` and `password`, timestamps defaulting to the current time) and for the two clients of
`knexfile.js`, where they differ: the range of `id`, the length of a string, the way a text bound
to `id` is read.
-/

namespace UserService

/-! ## Store -/

/-- The two clients named in `knexfile.js`: `development` uses sqlite3, `production` uses pg. -/
inductive Client
  | sqlite3
  | pg
deriving DecidableEq, Repr

/-- A row of the table created by `exports.up`: `increments("id")`, the two required strings,
and the two columns of `timestamps(true, true)`. -/
structure UserRow where
  id : Int
  username : String
  password : String
  created_at : Nat
  updated_at : Nat
deriving DecidableEq, Repr

/-- The `users` table: its rows in insertion order and the last value handed out by the
auto-increment of `id` (sqlite_sequence under sqlite3, the serial sequence under pg). -/
structure Table where
  rows : List UserRow
  seq : Int
deriving DecidableEq, Repr

/-- Modelled from the spec: the store handle exported by `db/dbConfig`, which `db/models/User.js`
requires and which is not among the sources.  It is a connection, through one of the clients of
`knexfile.js`, to a relational store that holds the `users` table once the migration has run
(`users = none` before that, or after `exports.down`). -/
structure Db where
  client : Client
  users : Option Table
deriving DecidableEq, Repr

/-- The ways a query rejects. -/
inductive StoreError
  | noSuchTable      -- the statement names `users` and the table is absent
  | tableExists      -- `create table users` and the table is present
  | notNull          -- NULL written to a `notNullable()` column
  | unique           -- a second row with the same `id` or the same `username`
  | emptyUpdate      -- knex refuses to compile an update without any defined value
  | dataException    -- pg, SQLSTATE class 22: a text that is no integer, an integer beyond
                     -- int4, a string beyond varchar(255) or with a NUL, a sequence at its end
  | full             -- sqlite3, SQLITE_FULL: the auto-increment has reached the largest rowid
  | tooBig           -- sqlite3, SQLITE_TOOBIG: a string beyond 10^9 bytes
  | mismatch         -- sqlite3, SQLITE_MISMATCH: a rowid that is no 64-bit integer
deriving DecidableEq, Repr

deriving instance DecidableEq for Except

/-- A query's outcome: the store afterwards, and the resolved value or the rejection. -/
abbrev Query (α : Type) := Db × Except StoreError α

/-- The rows of the store: those of `users`, none while the table is absent. -/
def Db.rows (db : Db) : List UserRow :=
  match db.users with
  | some t => t.rows
  | none => []

/-! ### What the columns hold -/

/-- The largest `id`: `increments` is a 64-bit rowid with AUTOINCREMENT under sqlite3 and a
`serial` (int4) under pg. -/
def Client.maxRowId : Client → Int
  | .sqlite3 => 9223372036854775807
  | .pg => 2147483647

/-- Whether the column `id` can hold the integer. -/
def Client.holdsId (c : Client) (n : Int) : Bool :=
  decide (-c.maxRowId - 1 ≤ n) && decide (n ≤ c.maxRowId)

/-- Whether a string column can hold the string: `table.string` is `varchar(255)`, which pg
enforces (and pg takes no NUL character), while sqlite3 only has its limit of 10^9 bytes. -/
def Client.holdsText (c : Client) (s : String) : Bool :=
  match c with
  | .sqlite3 => decide (s.utf8ByteSize ≤ 1000000000)
  | .pg => decide (s.length ≤ 255) && !s.data.contains (Char.ofNat 0)

/-- The rejection for a string the column cannot hold. -/
def Client.textError : Client → StoreError
  | .sqlite3 => .tooBig
  | .pg => .dataException

/-- The rejection for an `id` the column cannot hold. -/
def Client.idError : Client → StoreError
  | .sqlite3 => .mismatch
  | .pg => .dataException

/-- The rejection when the auto-increment has no `id` left. -/
def Client.exhausted : Client → StoreError
  | .sqlite3 => .full
  | .pg => .dataException

/-- A string that both clients hold: at most 255 characters, none of them NUL. -/
def Plain (s : String) : Prop :=
  s.length ≤ 255 ∧ Char.ofNat 0 ∉ s.data

instance (s : String) : Decidable (Plain s) := by
  unfold Plain
  exact inferInstance

/-! ### JS values -/

/-- A JS value held by the `username` or `password` key of an object, as far as the model
follows it: a string, `null`, or `undefined`, which also stands for a key that is missing. -/
inductive Val
  | undefined
  | null
  | str (s : String)
deriving DecidableEq, Repr

/-- The object handed to `insert` or `update`, as far as the model follows it: the keys `id`
(an integer when present), `username` and `password`. -/
structure UserData where
  id : Option Int
  username : Val
  password : Val
deriving DecidableEq, Repr

/-- The value a text column takes from an update: a string replaces it, `undefined` is dropped
from the statement by knex. -/
def Val.getD : Val → String → String
  | .str s, _ => s
  | _, old => old

/-- Whether the value is JS `null` (sent as SQL NULL). -/
def Val.isNull : Val → Bool
  | .null => true
  | _ => false

/-- Whether the value is JS `undefined`. -/
def Val.isUndefined : Val → Bool
  | .undefined => true
  | _ => false

/-- Whether a string column of the client can hold the value. -/
def Val.fits (c : Client) : Val → Bool
  | .str s => c.holdsText s
  | _ => true

/-- Whether the column `id` of the client can hold the `id` of the object, if it has one. -/
def idFits (c : Client) : Option Int → Bool
  | some j => c.holdsId j
  | none => true

/-! ### A text bound to `id` -/

/-- White space as both clients skip it around a number: space, tab, line feed, vertical tab,
form feed, carriage return. -/
def isSpace (c : Char) : Bool :=
  c.toNat == 32 || (decide (9 ≤ c.toNat) && decide (c.toNat ≤ 13))

/-- The number written by a run of decimal digits. -/
def digitsValue (ds : List Char) : Nat :=
  ds.foldl (fun n c => 10 * n + (c.toNat - 48)) 0

/-- Whether the text starts with a minus sign. -/
def isNegative : List Char → Bool
  | c :: _ => c.toNat == 45
  | [] => false

/-- The text after its sign, if it starts with one. -/
def dropSign : List Char → List Char
  | c :: cs => if c.toNat == 45 || c.toNat == 43 then cs else c :: cs
  | [] => []

/-- The integer with this sign and magnitude. -/
def signed (negative : Bool) (n : Nat) : Int :=
  if negative then -(n : Int) else (n : Int)

/-- The integer that a text spells in the plain way, which both clients read alike: white
space, an optional sign, digits, white space. -/
def integerText (s : String) : Option Int :=
  if s.data.all (fun c => !c.isDigit) then none
  else
    let body := dropSign (s.data.dropWhile isSpace)
    let digits := body.takeWhile Char.isDigit
    let rest := (body.dropWhile Char.isDigit).dropWhile isSpace
    if digits.isEmpty || !rest.isEmpty then none
    else some (signed (isNegative (s.data.dropWhile isSpace)) (digitsValue digits))

/-- How pg reads a text as an int4 (`int4in`, as up to PostgreSQL 15; later versions also take
`0x`, `0o`, `0b` and underscores): the integer it spells in the plain way, within int4.  Any
other text is refused. -/
def pgReads (s : String) : Except StoreError Int :=
  match integerText s with
  | some n => if Client.pg.holdsId n then .ok n else .error .dataException
  | none => .error .dataException

/-- The fraction digits of a literal, given the text after its whole part. -/
def fractionOf : List Char → List Char
  | c :: cs => if c.toNat == 46 then cs.takeWhile Char.isDigit else []
  | [] => []

/-- The text after the fraction of a literal, given the text after its whole part. -/
def afterFraction : List Char → List Char
  | c :: cs => if c.toNat == 46 then cs.dropWhile Char.isDigit else c :: cs
  | [] => []

/-- The exponent of a literal, given the text after its fraction: `some 0` when the text ends
there, `some e` after `e` or `E`, an optional sign and digits to the end, `none` otherwise. -/
def exponentOf : List Char → Option Int
  | [] => some 0
  | c :: cs =>
    if (c.toNat == 101 || c.toNat == 69) && !(dropSign cs).isEmpty
        && (dropSign cs).all Char.isDigit then
      some (signed (isNegative cs) (digitsValue (dropSign cs)))
    else none

/-- The integer equal to `mantissa * 10 ^ scale`, if it is one that a rowid can be: a number
with more than 19 digits is beyond every rowid. -/
def scaledInteger (negative : Bool) (mantissa : Nat) (digits : Nat) (scale : Int) :
    Option Int :=
  if mantissa = 0 then some 0
  else if 0 ≤ scale then
    if 19 < scale.toNat then none
    else some (signed negative (mantissa * 10 ^ scale.toNat))
  else if digits < (-scale).toNat then none
  else if mantissa % 10 ^ (-scale).toNat = 0 then
    some (signed negative (mantissa / 10 ^ (-scale).toNat))
  else none

/-- The integer that a text equals as a decimal literal with a fraction or an exponent
(white space, sign, digits, fraction, exponent, white space), if any.  The value of the literal
is taken exactly here; sqlite3 takes such a literal as a 64-bit float, which is the same up to
15 significant digits. -/
def decimalText (s : String) : Option Int :=
  if s.data.all (fun c => !c.isDigit) then none
  else
    let trimmed := ((s.data.dropWhile isSpace).reverse.dropWhile isSpace).reverse
    let body := dropSign trimmed
    let whole := body.takeWhile Char.isDigit
    let fraction := fractionOf (body.dropWhile Char.isDigit)
    if whole.isEmpty && fraction.isEmpty then none
    else
      match exponentOf (afterFraction (body.dropWhile Char.isDigit)) with
      | none => none
      | some e =>
        scaledInteger (isNegative trimmed) (digitsValue (whole ++ fraction))
          (whole ++ fraction).length (e - fraction.length)

/-- How sqlite3 compares a text with the integer column `id`: the column's affinity turns a
text that is a well-formed number into that number, and the result is the integer it equals, if
any; any other text equals no `id`. -/
def sqliteReads (s : String) : Option Int :=
  match integerText s with
  | some n => some n
  | none => decimalText s

/-- A JS value bound to the integer column `id` in `where({ id })`: a number that is an
integer, or a text, which is what the router takes from the path. -/
inductive IdArg
  | int (n : Int)
  | text (s : String)
deriving DecidableEq, Repr

/-- The integer the client takes the binding for: `some n` when it stands for the integer `n`,
`none` when it equals no integer (sqlite3 only), a rejection when pg refuses it. -/
def IdArg.reads (c : Client) : IdArg → Except StoreError (Option Int)
  | .int n =>
    match c with
    | .sqlite3 => .ok (some n)
    | .pg => if c.holdsId n then .ok (some n) else .error .dataException
  | .text s =>
    match c with
    | .sqlite3 => .ok (sqliteReads s)
    | .pg =>
      match pgReads s with
      | .ok n => .ok (some n)
      | .error e => .error e

/-- The integer that the binding stands for beyond doubt: the number itself, or the integer
that the text spells in the plain way. -/
def IdArg.spells : IdArg → Option Int
  | .int n => some n
  | .text s => integerText s

/-- The predicate of `where({ id })`. -/
def whereId (c : Client) (id : IdArg) : Except StoreError (UserRow → Bool) :=
  match id.reads c with
  | .ok m => .ok fun r => m == some r.id
  | .error e => .error e

/-! ### The auto-increment -/

/-- The largest `id` among the rows (0 when there is none). -/
def maxId : List UserRow → Int
  | [] => 0
  | r :: rest => if rest.isEmpty then r.id else max r.id (maxId rest)

/-- The `id` the auto-increment gives the next row: sqlite3 takes one more than the largest of
the recorded sequence and the ids in the table, pg takes the next value of the sequence. -/
def Table.nextId (c : Client) (t : Table) : Int :=
  match c with
  | .sqlite3 => max t.seq (maxId t.rows) + 1
  | .pg => t.seq + 1

/-- The table after a statement drew a default `id` and then failed on a constraint: pg does
not give the sequence value back, sqlite3 undoes the statement whole. -/
def Table.afterFailedInsert (c : Client) (d : UserData) (t : Table) : Table :=
  match c, d.id with
  | .pg, none => { t with seq := t.seq + 1 }
  | _, _ => t

/-- The sequence after a row with this `id` went in. -/
def Table.seqAfterInsert (c : Client) (d : UserData) (t : Table) (id : Int) : Int :=
  match c with
  | .sqlite3 => max t.seq id
  | .pg => (t.afterFailedInsert .pg d).seq

namespace Knex

/-- The chain `knex.schema.createTable("users", ...)`. -/
def createTable (db : Db) : Query Unit :=
  match db.users with
  | some _ => (db, .error .tableExists)
  | none => ({ db with users := some ⟨[], 0⟩ }, .ok ())

/-- The chain `knex.schema.dropTableIfExists("users")`. -/
def dropTableIfExists (db : Db) : Query Unit :=
  ({ db with users := none }, .ok ())

/-- The chain `db("users").where({ id }).first()`: the first matching row or `undefined`. -/
def first (db : Db) (id : IdArg) : Query (Option UserRow) :=
  match db.users with
  | none => (db, .error .noSuchTable)
  | some t =>
    match whereId db.client id with
    | .error e => (db, .error e)
    | .ok p => (db, .ok (t.rows.find? p))

/-- The chain `db("users").insert(user).returning("*")`: one row goes in, with the columns the
object leaves out at their defaults (next `id`, current time), and the statement resolves with
the array of inserted rows.  A value that is `undefined` or `null` reaches a required column as
NULL.  The statement is refused, in this order, for a value its column cannot hold, for an
auto-increment without an `id` left, for NULL in a required column, and for an `id` or a
`username` that a row already has. -/
def insert (db : Db) (now : Nat) (user : UserData) : Query (List UserRow) :=
  match db.users with
  | none => (db, .error .noSuchTable)
  | some t =>
    if !(user.username.fits db.client && user.password.fits db.client) then
      (db, .error db.client.textError)
    else if !idFits db.client user.id then
      (db, .error db.client.idError)
    else if user.id.isNone && decide (db.client.maxRowId < t.nextId db.client) then
      (db, .error db.client.exhausted)
    else
      let id := user.id.getD (t.nextId db.client)
      match user.username, user.password with
      | .str u, .str p =>
        if t.rows.any (fun r => r.id == id || r.username == u) then
          ({ db with users := some (t.afterFailedInsert db.client user) }, .error .unique)
        else
          let row : UserRow := ⟨id, u, p, now, now⟩
          ({ db with users := some ⟨t.rows ++ [row], t.seqAfterInsert db.client user id⟩ },
            .ok [row])
      | _, _ => ({ db with users := some (t.afterFailedInsert db.client user) }, .error .notNull)

/-- Whether the object holds no defined value, the case in which knex throws
"Empty .update() call detected!" while compiling the statement. -/
def emptyUpdate (user : UserData) : Bool :=
  user.id.isNone && user.username.isUndefined && user.password.isUndefined

/-- The row after `set` with the defined values of the object. -/
def assign (user : UserData) (r : UserRow) : UserRow :=
  { r with
    id := user.id.getD r.id
    username := user.username.getD r.username
    password := user.password.getD r.password }

/-- Whether a row that the statement leaves alone already holds the `id` or the `username` that
the statement writes. -/
def clashes (user : UserData) (q : UserRow) : Bool :=
  (match user.username with
    | .str u => q.username == u
    | _ => false) ||
  (match user.id with
    | some j => q.id == j
    | none => false)

/-- The chain `db("users").where({ id }).update(user).returning("*")`: the matching row
(`id` is the primary key, so at most one) takes the defined values of the object, and the
statement resolves with the array of updated rows, empty when no row matches.  After knex has
compiled it, the statement is refused, in this order, for a value that cannot be bound (a string
its column cannot hold, under pg also an `id` beyond int4 or a text that is no integer), and,
when a row matches, for an `id` that is no rowid, for NULL in a required column, and for an `id`
or a `username` that another row has. -/
def update (db : Db) (id : IdArg) (user : UserData) : Query (List UserRow) :=
  if emptyUpdate user then (db, .error .emptyUpdate)
  else
    match db.users with
    | none => (db, .error .noSuchTable)
    | some t =>
      if !(user.username.fits db.client && user.password.fits db.client) then
        (db, .error db.client.textError)
      else if db.client == .pg && !idFits .pg user.id then
        (db, .error .dataException)
      else
        match whereId db.client id with
        | .error e => (db, .error e)
        | .ok p =>
          if t.rows.any p && !idFits db.client user.id then
            (db, .error db.client.idError)
          else if t.rows.any p && (user.username.isNull || user.password.isNull) then
            (db, .error .notNull)
          else if t.rows.any p && t.rows.any (fun q => !p q && clashes user q) then
            (db, .error .unique)
          else
            ({ db with users := some { t with rows := t.rows.map fun r => if p r then assign user r else r } },
              .ok ((t.rows.filter p).map (assign user)))

/-- The chain `db("users").where({ id }).del()`: resolves with the number of rows
removed. -/
def del (db : Db) (id : IdArg) : Query Nat :=
  match db.users with
  | none => (db, .error .noSuchTable)
  | some t =>
    match whereId db.client id with
    | .error e => (db, .error e)
    | .ok p =>
      ({ db with users := some { t with rows := t.rows.filter fun r => !p r } },
        .ok (t.rows.filter p).length)

end Knex

/-! ## Migration: `db/migrations/20230217193940_create_users_table.js` -/

namespace Migration

/-- The function `exports.up`. -/
def up (db : Db) : Query Unit :=
  Knex.createTable db

/-- The function `exports.down`. -/
def down (db : Db) : Query Unit :=
  Knex.dropTableIfExists db

end Migration

/-! ## Repository: `db/models/User.js` -/

namespace User

/-- The function `findById`. -/
def findById (db : Db) (id : IdArg) : Query (Option UserRow) :=
  Knex.first db id

/-- The function `create`; `now` is the store's clock when the statement runs. -/
def create (db : Db) (now : Nat) (user : UserData) : Query (List UserRow) :=
  Knex.insert db now user

/-- The function `update`. -/
def update (db : Db) (id : IdArg) (user : UserData) : Query (List UserRow) :=
  Knex.update db id user

/-- The function `delete`. -/
def delete (db : Db) (id : IdArg) : Query Nat :=
  Knex.del db id

end User

/-! ## Router: `routers/userRouter.js` -/

/-- What a repository call resolves with, as handed to `res.json`. -/
inductive Json
  | undefined
  | number (n : Nat)
  | object (u : UserRow)
  | array (us : List UserRow)
deriving DecidableEq, Repr

/-- A response that was sent. -/
structure Response where
  status : Nat
  body : Json
deriving DecidableEq, Repr

/-- The call `res.json(value)`: no handler sets a status, so it is 200. -/
def res_json (value : Json) : Response :=
  ⟨200, value⟩

/-- The JSON of `findById`: the row, or `undefined`. -/
def Json.ofOption : Option UserRow → Json
  | some u => .object u
  | none => .undefined

/-- The parsed request body, as far as the model follows it: an `id` of its own, and
`username` and `password`. -/
structure Body where
  id : Option Int
  username : Val
  password : Val
deriving DecidableEq, Repr

/-- What a handler leaves: the store, and the response sent or the rejection that went
uncaught. -/
abbrev Handled := Db × Except StoreError Response

namespace Router

/-- The handler `router.post("/")`. -/
def post (db : Db) (now : Nat) (body : Body) : Handled :=
  let username := body.username
  let password := body.password
  let user := User.create db now ⟨none, username, password⟩
  (user.1, user.2.map fun u => res_json (.array u))

/-- The handler `router.get("/:id")`. -/
def get (db : Db) (id : IdArg) : Handled :=
  let user := User.findById db id
  (user.1, user.2.map fun u => res_json (Json.ofOption u))

/-- The handler `router.put("/:id")`. -/
def put (db : Db) (id : IdArg) (body : Body) : Handled :=
  let username := body.username
  let password := body.password
  let user := User.update db id ⟨none, username, password⟩
  (user.1, user.2.map fun u => res_json (.array u))

/-- The handler `router.delete("/:id")`. -/
def delete (db : Db) (id : IdArg) : Handled :=
  let user := User.delete db id
  (user.1, user.2.map fun n => res_json (.number n))

end Router

/-! ## The constraints of the schema -/

/-- The constraints that the schema of `exports.up` puts on the table, with the bookkeeping of
the auto-increment: `id` is a key, `username` is unique, no `id` runs ahead of the sequence. -/
structure Table.Valid (t : Table) : Prop where
  ids : t.rows.Pairwise fun a b => a.id ≠ b.id
  names : t.rows.Pairwise fun a b => a.username ≠ b.username
  seq : ∀ r ∈ t.rows, r.id ≤ t.seq

/-- A store whose table, when it is there, meets its constraints. -/
def Db.Valid (db : Db) : Prop :=
  ∀ t, db.users = some t → t.Valid

/-! ## Small runs -/

/-- A migrated sqlite3 store without rows. -/
def emptyDb : Db := ⟨.sqlite3, some ⟨[], 0⟩⟩

/-- A migrated sqlite3 store holding alice (1) and bob (2). -/
def twoUsers : Db :=
  ⟨.sqlite3, some ⟨[⟨1, "alice", "p1", 10, 10⟩, ⟨2, "bob", "p2", 11, 11⟩], 2⟩⟩

/-- The same two users in a pg store. -/
def twoUsersPg : Db :=
  ⟨.pg, twoUsers.users⟩

/-- A string of 256 characters. -/
def longText : String :=
  String.mk (List.replicate 256 (Char.ofNat 97))

/-- A string that holds a NUL character. -/
def nulText : String :=
  String.mk [Char.ofNat 97, Char.ofNat 0]


/-! ## Lemmas on the store -/

theorem le_maxId (rows : List UserRow) : ∀ r ∈ rows, r.id ≤ maxId rows := by
  induction rows with
  | nil => intro r hr; cases hr
  | cons a rest ih =>
    intro r hr
    cases rest with
    | nil =>
      simp only [List.mem_singleton] at hr
      subst hr
      simp [maxId]
    | cons b more =>
      simp only [maxId, List.isEmpty_cons, Bool.false_eq_true, if_false] at ih ⊢
      rcases List.mem_cons.mp hr with h | h
      · subst h; exact le_max_left _ _
      · exact le_trans (ih r h) (le_max_right _ _)

theorem utf8ByteSize_go_le (cs : List Char) : String.utf8ByteSize.go cs ≤ 4 * cs.length := by
  induction cs with
  | nil => simp [String.utf8ByteSize.go]
  | cons c rest ih =>
    have := c.utf8Size_le_four
    simp only [String.utf8ByteSize.go, List.length_cons]
    omega

/-- Both clients hold a plain string. -/
theorem plain_holdsText (c : Client) (s : String) (h : Plain s) : c.holdsText s = true := by
  obtain ⟨hlen, hnul⟩ := h
  cases c with
  | sqlite3 =>
    have h1 : s.utf8ByteSize ≤ 4 * s.length := by
      cases s with
      | mk cs => exact utf8ByteSize_go_le cs
    simp only [Client.holdsText, decide_eq_true_eq]
    omega
  | pg =>
    simp only [Client.holdsText, Bool.and_eq_true, decide_eq_true_eq, Bool.not_eq_true',
      List.contains_eq_any_beq, List.any_eq_false, beq_iff_eq]
    exact ⟨hlen, fun x hx e => hnul (e ▸ hx)⟩

/-- A binding that spells an integer the column can hold is read as that integer. -/
theorem reads_of_spells (c : Client) (id : IdArg) (i : Int)
    (hs : id.spells = some i) (hin : c.holdsId i = true) : id.reads c = .ok (some i) := by
  cases id with
  | int n =>
    simp only [IdArg.spells, Option.some.injEq] at hs
    subst hs
    cases c with
    | sqlite3 => rfl
    | pg => simp only [IdArg.reads, hin, if_true]
  | text s =>
    simp only [IdArg.spells] at hs
    cases c with
    | sqlite3 => simp only [IdArg.reads, sqliteReads, hs]
    | pg =>
      have hin1 : Client.holdsId Client.pg i = true := hin
      simp only [IdArg.reads, pgReads, hs, hin1, if_true]

theorem whereId_of_spells (c : Client) (id : IdArg) (i : Int)
    (hs : id.spells = some i) (hin : c.holdsId i = true) :
    whereId c id = .ok fun r => r.id == i := by
  simp only [whereId, reads_of_spells c id i hs hin]
  congr 1
  funext r
  by_cases h : r.id = i
  · simp [h]
  · have h1 : ¬ i = r.id := fun e => h e.symm
    simp [h, h1]

/-- A text without a digit is no number: it equals no `id` under sqlite3, and pg refuses it. -/
theorem reads_no_digit (s : String) (h : s.data.all (fun c => !c.isDigit) = true) :
    (IdArg.text s).reads .sqlite3 = .ok none ∧
    (IdArg.text s).reads .pg = .error .dataException := by
  have hi : integerText s = none := by simp only [integerText, h, if_true]
  have hd : decimalText s = none := by simp only [decimalText, h, if_true]
  constructor
  · simp only [IdArg.reads, sqliteReads, hi, hd]
  · simp only [IdArg.reads, pgReads, hi]

theorem find?_append_fresh (rows : List UserRow) (row : UserRow)
    (h : ∀ r ∈ rows, r.id ≠ row.id) :
    (rows ++ [row]).find? (fun r => r.id == row.id) = some row := by
  rw [List.find?_append]
  have hnone : rows.find? (fun r => r.id == row.id) = none := by
    rw [List.find?_eq_none]
    intro r hr
    simpa using h r hr
  simp [hnone]

theorem afterFailedInsert_rows (c : Client) (d : UserData) (t : Table) :
    (t.afterFailedInsert c d).rows = t.rows := by
  cases c <;> cases d with
  | mk id username password => cases id <;> rfl

theorem seqAfterInsert_nextId (c : Client) (un pw : Val) (t : Table) :
    t.seqAfterInsert c ⟨none, un, pw⟩ (t.nextId c) = t.nextId c := by
  cases c with
  | sqlite3 =>
    simp only [Table.seqAfterInsert, Table.nextId]
    have := le_max_left t.seq (maxId t.rows)
    omega
  | pg => rfl

/-- What `create` does with a username that is free, when the auto-increment has an `id` left
that no row holds and both strings are plain: the row goes to the end of the table with the next
`id` and the clock as both timestamps. -/
theorem create_free (db : Db) (t : Table) (now : Nat) (u p : String)
    (ht : db.users = some t)
    (hroom : t.nextId db.client ≤ db.client.maxRowId)
    (hnext : ∀ r ∈ t.rows, r.id ≠ t.nextId db.client)
    (hu : Plain u) (hp : Plain p)
    (hfree : ∀ r ∈ t.rows, r.username ≠ u) :
    User.create db now ⟨none, .str u, .str p⟩ =
      (⟨db.client, some ⟨t.rows ++ [⟨t.nextId db.client, u, p, now, now⟩], t.nextId db.client⟩⟩,
        .ok [⟨t.nextId db.client, u, p, now, now⟩]) := by
  have hany : t.rows.any (fun r => r.id == t.nextId db.client || r.username == u) = false := by
    rw [List.any_eq_false]
    intro r hr
    simp [hnext r hr, hfree r hr]
  have hroom1 : ¬ db.client.maxRowId < t.nextId db.client := not_lt.mpr hroom
  simp [User.create, Knex.insert, ht, hany, seqAfterInsert_nextId, Val.fits,
    plain_holdsText _ _ hu, plain_holdsText _ _ hp, idFits, hroom1]

/-- What `create` does with a username that is taken, under the same conditions: the store
refuses the row for its uniqueness constraint, and the rows stay. -/
theorem create_taken (db : Db) (t : Table) (now : Nat) (u p : String)
    (ht : db.users = some t)
    (hroom : t.nextId db.client ≤ db.client.maxRowId)
    (hu : Plain u) (hp : Plain p)
    (htaken : ∃ r ∈ t.rows, r.username = u) :
    User.create db now ⟨none, .str u, .str p⟩ =
      (⟨db.client, some (t.afterFailedInsert db.client ⟨none, .str u, .str p⟩)⟩,
        .error .unique) := by
  obtain ⟨r, hr, hru⟩ := htaken
  have hany : t.rows.any (fun r => r.id == t.nextId db.client || r.username == u) = true := by
    rw [List.any_eq_true]
    exact ⟨r, hr, by simp [hru]⟩
  have hroom1 : ¬ db.client.maxRowId < t.nextId db.client := not_lt.mpr hroom
  simp [User.create, Knex.insert, ht, hany, Val.fits,
    plain_holdsText _ _ hu, plain_holdsText _ _ hp, idFits, hroom1]

/-- What `create` does with a `username` or `password` that is no string: the statement is
refused, whatever else holds, and the rows stay. -/
theorem create_not_string (db : Db) (t : Table) (now : Nat) (un pw : Val)
    (ht : db.users = some t) (h : (∀ s, un ≠ .str s) ∨ (∀ s, pw ≠ .str s)) :
    ∃ e t1, (User.create db now ⟨none, un, pw⟩).2 = .error e ∧
      (User.create db now ⟨none, un, pw⟩).1.users = some t1 ∧ t1.rows = t.rows := by
  simp only [User.create, Knex.insert, ht]
  split
  · exact ⟨_, t, rfl, ht, rfl⟩
  · split
    · exact ⟨_, t, rfl, ht, rfl⟩
    · split
      · exact ⟨_, t, rfl, ht, rfl⟩
      · cases un with
        | str a =>
          cases pw with
          | str b =>
            rcases h with h | h
            · exact absurd rfl (h a)
            · exact absurd rfl (h b)
          | undefined => exact ⟨_, _, rfl, rfl, afterFailedInsert_rows _ _ _⟩
          | null => exact ⟨_, _, rfl, rfl, afterFailedInsert_rows _ _ _⟩
        | undefined => exact ⟨_, _, rfl, rfl, afterFailedInsert_rows _ _ _⟩
        | null => exact ⟨_, _, rfl, rfl, afterFailedInsert_rows _ _ _⟩

theorem filter_id_singleton (rows : List UserRow) (hpk : (rows.map UserRow.id).Nodup)
    (r : UserRow) (hr : r ∈ rows) :
    rows.filter (fun x => x.id == r.id) = [r] := by
  induction rows with
  | nil => cases hr
  | cons a rest ih =>
    rw [List.map_cons, List.nodup_cons] at hpk
    rcases List.mem_cons.mp hr with h | h
    · subst h
      have hnil : rest.filter (fun x => x.id == r.id) = [] := by
        rw [List.filter_eq_nil_iff]
        intro x hx hxi
        exact hpk.1 (List.mem_map.mpr ⟨x, hx, by simpa using hxi⟩)
      simp [List.filter_cons, hnil]
    · have hne : a.id ≠ r.id := fun e => hpk.1 (List.mem_map.mpr ⟨r, h, e.symm⟩)
      simp [List.filter_cons, hne, ih hpk.2 h]

theorem eq_of_id_eq (rows : List UserRow) (hpk : (rows.map UserRow.id).Nodup)
    (r x : UserRow) (hr : r ∈ rows) (hx : x ∈ rows) (h : x.id = r.id) : x = r := by
  have hs := filter_id_singleton rows hpk r hr
  have hm : x ∈ rows.filter (fun y => y.id == r.id) := by
    rw [List.mem_filter]
    exact ⟨hx, by simpa using h⟩
  rw [hs] at hm
  simpa using hm

theorem fits_of_plain (c : Client) (v : Val) (h : ∀ s, v = .str s → Plain s) :
    v.fits c = true := by
  cases v with
  | str s => exact plain_holdsText c s (h s rfl)
  | undefined => rfl
  | null => rfl

/-- What `update` does with an object without `id` that holds a plain string and no null, when
the row is there and its new username is not held by another row. -/
theorem update_found (db : Db) (t : Table) (id : IdArg) (i : Int) (r : UserRow) (un pw : Val)
    (ht : db.users = some t) (hpk : (t.rows.map UserRow.id).Nodup)
    (hs : id.spells = some i) (hin : db.client.holdsId i = true)
    (hr : r ∈ t.rows) (hi : r.id = i)
    (hun : un ≠ .null) (hpw : pw ≠ .null) (hne : un ≠ .undefined ∨ pw ≠ .undefined)
    (hup : ∀ s, un = .str s → Plain s) (hpp : ∀ s, pw = .str s → Plain s)
    (hfree : ∀ q ∈ t.rows, q.id ≠ i → un ≠ .str q.username) :
    User.update db id ⟨none, un, pw⟩ =
      (⟨db.client, some ⟨t.rows.map fun x =>
          if x.id = i then ⟨r.id, un.getD r.username, pw.getD r.password, r.created_at,
            r.updated_at⟩ else x, t.seq⟩⟩,
        .ok [⟨r.id, un.getD r.username, pw.getD r.password, r.created_at, r.updated_at⟩]) := by
  subst hi
  have hempty : Knex.emptyUpdate ⟨none, un, pw⟩ = false := by
    cases un <;> cases pw <;> simp_all [Knex.emptyUpdate, Val.isUndefined]
  have hnull : (un.isNull || pw.isNull) = false := by
    cases un <;> cases pw <;> simp_all [Val.isNull]
  have hclash : t.rows.any (fun q => !(q.id == r.id) && Knex.clashes ⟨none, un, pw⟩ q) = false := by
    rw [List.any_eq_false]
    intro q hq
    by_cases hqi : q.id = r.id
    · simp [hqi]
    · have hq1 := hfree q hq hqi
      cases un with
      | str s =>
        have hs : q.username ≠ s := fun e => hq1 (by rw [e])
        simp [Knex.clashes, hqi, hs]
      | undefined => simp [Knex.clashes]
      | null => simp [Knex.clashes]
  have hfilter := filter_id_singleton t.rows hpk r hr
  have hmap : (t.rows.map fun x => if (x.id == r.id) = true then Knex.assign ⟨none, un, pw⟩ x else x)
      = t.rows.map fun x =>
          if x.id = r.id then ⟨r.id, un.getD r.username, pw.getD r.password, r.created_at,
            r.updated_at⟩ else x := by
    apply List.map_congr_left
    intro x hx
    by_cases hxi : x.id = r.id
    · have := eq_of_id_eq t.rows hpk r x hr hx hxi
      subst this
      simp [Knex.assign]
    · simp [hxi]
  simp only [User.update, Knex.update, hempty, ht, whereId_of_spells _ _ _ hs hin, hnull, hclash,
    hfilter, hmap, fits_of_plain _ _ hup, fits_of_plain _ _ hpp, idFits]
  simp [Knex.assign]

/-- What `update` does with such an object when no row has the `id`: nothing. -/
theorem update_not_found (db : Db) (t : Table) (id : IdArg) (i : Int) (un pw : Val)
    (ht : db.users = some t)
    (hs : id.spells = some i) (hin : db.client.holdsId i = true)
    (hne : un ≠ .undefined ∨ pw ≠ .undefined)
    (hup : ∀ s, un = .str s → Plain s) (hpp : ∀ s, pw = .str s → Plain s)
    (hno : ∀ q ∈ t.rows, q.id ≠ i) :
    User.update db id ⟨none, un, pw⟩ = (db, .ok []) := by
  have hempty : Knex.emptyUpdate ⟨none, un, pw⟩ = false := by
    cases un <;> cases pw <;> simp_all [Knex.emptyUpdate, Val.isUndefined]
  have hany : t.rows.any (fun q => q.id == i) = false := by
    rw [List.any_eq_false]
    intro q hq
    simpa using hno q hq
  have hfilter : t.rows.filter (fun q => q.id == i) = [] := by
    rw [List.filter_eq_nil_iff]
    intro q hq
    simpa using hno q hq
  have hmap : (t.rows.map fun x => if (x.id == i) = true then Knex.assign ⟨none, un, pw⟩ x else x)
      = t.rows := by
    conv_rhs => rw [← List.map_id t.rows]
    apply List.map_congr_left
    intro x hx
    simp [hno x hx]
  simp only [User.update, Knex.update, hempty, ht, whereId_of_spells _ _ _ hs hin, hany, hfilter,
    hmap, fits_of_plain _ _ hup, fits_of_plain _ _ hpp, idFits]
  cases db
  simp_all

/-- The store after `update` with an object without `id`: as it was, or with the rows that the
`where` clause names rewritten in place, and then no other row holds the username written. -/
theorem update_state (db : Db) (id : IdArg) (un pw : Val) :
    (User.update db id ⟨none, un, pw⟩).1 = db ∨
    ∃ t p, db.users = some t ∧ whereId db.client id = .ok p ∧
      (t.rows.any p = true →
        ∀ q ∈ t.rows, p q = false → Knex.clashes ⟨none, un, pw⟩ q = false) ∧
      (User.update db id ⟨none, un, pw⟩).1 =
        ⟨db.client, some ⟨t.rows.map fun r =>
          if p r then Knex.assign ⟨none, un, pw⟩ r else r, t.seq⟩⟩ := by
  simp only [User.update, Knex.update]
  split
  · exact Or.inl rfl
  · cases ht : db.users with
    | none => exact Or.inl rfl
    | some t =>
      simp only []
      split
      · exact Or.inl rfl
      · split
        · exact Or.inl rfl
        · cases hw : whereId db.client id with
          | error e => exact Or.inl rfl
          | ok p =>
            simp only []
            split
            · exact Or.inl rfl
            · split
              · exact Or.inl rfl
              · split
                · exact Or.inl rfl
                · rename_i hclash
                  refine Or.inr ⟨t, p, rfl, rfl, ?_, rfl⟩
                  intro hany q hq hpq
                  simp only [hany, Bool.true_and, Bool.not_eq_true, List.any_eq_false,
                    Bool.and_eq_true, Bool.not_eq_true', not_and] at hclash
                  simpa using hclash q hq hpq

/-- No `update` with an object without `id` changes the `id` of a row. -/
theorem update_keeps_ids (db : Db) (id : IdArg) (un pw : Val) :
    (User.update db id ⟨none, un, pw⟩).1.rows.map UserRow.id = db.rows.map UserRow.id := by
  rcases update_state db id un pw with h | ⟨t, p, ht, _, _, h⟩
  · rw [h]
  · rw [h]
    simp only [Db.rows, ht, List.map_map]
    apply List.map_congr_left
    intro r _
    simp only [Function.comp]
    split <;> rfl

/-- No `update` with an object without `id` changes a row whose `id` is not the one the
binding spells. -/
theorem update_keeps_others (db : Db) (id : IdArg) (un pw : Val) (i : Int)
    (hs : id.spells = some i) (hin : db.client.holdsId i = true) :
    List.Forall₂ (fun r r1 : UserRow => r.id ≠ i → r1 = r)
      db.rows (User.update db id ⟨none, un, pw⟩).1.rows := by
  rcases update_state db id un pw with h | ⟨t, p, ht, hw, _, h⟩
  · rw [h, List.forall₂_same]
    intro x _ _
    rfl
  · rw [h]
    simp only [Db.rows, ht]
    rw [List.forall₂_map_right_iff, List.forall₂_same]
    intro x _ hx
    rw [whereId_of_spells _ _ _ hs hin] at hw
    simp only [Except.ok.injEq] at hw
    subst hw
    simp [hx]

/-! ## The handlers keep the constraints of the schema -/

theorem Table.Valid.ids_nodup {t : Table} (h : t.Valid) : (t.rows.map UserRow.id).Nodup := by
  unfold List.Nodup
  rw [List.pairwise_map]
  exact h.ids

/-- In a table that meets its constraints the next `id` is held by no row. -/
theorem Table.Valid.next_free {t : Table} (h : t.Valid) (c : Client) :
    ∀ r ∈ t.rows, r.id ≠ t.nextId c := by
  intro r hr
  cases c with
  | sqlite3 =>
    have h1 := le_maxId t.rows r hr
    have h2 := le_max_right t.seq (maxId t.rows)
    simp only [Table.nextId]
    omega
  | pg =>
    have h1 := h.seq r hr
    simp only [Table.nextId]
    omega

theorem valid_afterFailedInsert (c : Client) (d : UserData) (t : Table) (h : t.Valid) :
    (t.afterFailedInsert c d).Valid := by
  obtain ⟨id, un, pw⟩ := d
  cases c <;> cases id <;> simp only [Table.afterFailedInsert] <;> try exact h
  exact ⟨h.ids, h.names, fun r hr => by have := h.seq r hr; simp only; omega⟩

/-- The migration leaves a store that meets the constraints. -/
theorem up_valid (db : Db) (h : db.Valid) : (Migration.up db).1.Valid := by
  simp only [Migration.up, Knex.createTable]
  cases ht : db.users with
  | some t => simpa only [ht] using h
  | none =>
    intro t e
    simp only [Option.some.injEq] at e
    subst e
    exact ⟨List.Pairwise.nil, List.Pairwise.nil, fun r hr => by cases hr⟩

/-- The handler `router.post("/")` keeps the constraints. -/
theorem post_valid (db : Db) (now : Nat) (body : Body) (h : db.Valid) :
    (Router.post db now body).1.Valid := by
  simp only [Router.post, User.create, Knex.insert]
  cases ht : db.users with
  | none => simpa only [ht] using h
  | some t =>
    have hv := h t ht
    have hdb : Db.Valid db := h
    have hfail : ∀ d, Db.Valid ⟨db.client, some (t.afterFailedInsert db.client d)⟩ := by
      intro d t1 e
      simp only [Option.some.injEq] at e
      subst e
      exact valid_afterFailedInsert _ _ _ hv
    simp only [Option.getD_none]
    split
    · exact hdb
    · split
      · exact hdb
      · split
        · exact hdb
        · cases hu : body.username with
          | undefined => exact hfail _
          | null => exact hfail _
          | str u =>
            cases hp : body.password with
            | undefined => exact hfail _
            | null => exact hfail _
            | str p =>
              simp only []
              split
              · exact hfail _
              · rename_i hany
                simp only [Bool.not_eq_true, List.any_eq_false, Bool.or_eq_true, beq_iff_eq,
                  not_or] at hany
                intro t1 e
                simp only [Option.some.injEq] at e
                subst e
                refine ⟨?_, ?_, ?_⟩
                · simp only [List.pairwise_append, List.pairwise_singleton, List.mem_singleton,
                    forall_eq, and_true]
                  exact ⟨hv.ids, trivial, fun r hr => (hany r hr).1⟩
                · simp only [List.pairwise_append, List.pairwise_singleton, List.mem_singleton,
                    forall_eq, and_true]
                  exact ⟨hv.names, trivial, fun r hr => (hany r hr).2⟩
                · intro r hr
                  have hle : t.seq < t.nextId db.client := by
                    cases db.client with
                    | sqlite3 =>
                      simp only [Table.nextId]
                      have := le_max_left t.seq (maxId t.rows)
                      omega
                    | pg =>
                      simp only [Table.nextId]
                      omega
                  simp only [seqAfterInsert_nextId]
                  rcases List.mem_append.mp hr with hr | hr
                  · have := hv.seq r hr
                    omega
                  · simp only [List.mem_singleton] at hr
                    subst hr
                    exact le_refl _

theorem whereId_same_id (c : Client) (id : IdArg) (p : UserRow → Bool)
    (hw : whereId c id = .ok p) (a b : UserRow) (ha : p a = true) (hb : p b = true) :
    a.id = b.id := by
  simp only [whereId] at hw
  cases hr : id.reads c with
  | error e => rw [hr] at hw; cases hw
  | ok m =>
    rw [hr] at hw
    simp only [Except.ok.injEq] at hw
    subst hw
    simp only [beq_iff_eq] at ha hb
    have := ha.symm.trans hb
    simpa using this

/-- The handler `router.put("/:id")` keeps the constraints. -/
theorem put_valid (db : Db) (id : IdArg) (body : Body) (h : db.Valid) :
    (Router.put db id body).1.Valid := by
  rcases update_state db id body.username body.password with hsame | ⟨t, p, ht, hw, hcl, hst⟩
  · simp only [Router.put]
    rw [hsame]
    exact h
  · have hv := h t ht
    simp only [Router.put]
    rw [hst]
    intro t1 e
    simp only [Option.some.injEq] at e
    subst e
    have hid : ∀ x : UserRow,
        (if p x = true then Knex.assign ⟨none, body.username, body.password⟩ x else x).id
          = x.id := by
      intro x
      split <;> rfl
    refine ⟨?_, ?_, ?_⟩
    · simp only [List.pairwise_map, hid]
      exact hv.ids
    · simp only [List.pairwise_map]
      refine List.Pairwise.imp_of_mem ?_ (List.Pairwise.and hv.ids hv.names)
      intro a b ha hb hab
      by_cases hpa : p a = true
      · have hpb : ¬ p b = true := fun hpb => hab.1 (whereId_same_id _ _ _ hw a b hpa hpb)
        have hany : t.rows.any p = true := List.any_eq_true.mpr ⟨a, ha, hpa⟩
        have hclb := hcl hany b hb (by simpa using hpb)
        simp only [hpa, hpb, if_true, if_false, Knex.assign]
        cases hun : body.username with
        | str u =>
          simp only [Knex.clashes, hun, Bool.or_false, beq_eq_false_iff_ne] at hclb
          simp only [Val.getD]
          exact fun e => hclb e.symm
        | undefined => simpa only [Val.getD] using hab.2
        | null => simpa only [Val.getD] using hab.2
      · by_cases hpb : p b = true
        · have hany : t.rows.any p = true := List.any_eq_true.mpr ⟨b, hb, hpb⟩
          have hcla := hcl hany a ha (by simpa using hpa)
          simp only [hpa, hpb, if_true, if_false, Knex.assign]
          cases hun : body.username with
          | str u =>
            simp only [Knex.clashes, hun, Bool.or_false, beq_eq_false_iff_ne] at hcla
            simp only [Val.getD]
            exact hcla
          | undefined => simpa only [Val.getD] using hab.2
          | null => simpa only [Val.getD] using hab.2
        · simp only [hpa, hpb, if_false]
          exact hab.2
    · intro r hr
      obtain ⟨x, hx, rfl⟩ := List.mem_map.mp hr
      rw [hid]
      exact hv.seq x hx

/-- The handler `router.delete("/:id")` keeps the constraints. -/
theorem delete_valid (db : Db) (id : IdArg) (h : db.Valid) :
    (Router.delete db id).1.Valid := by
  simp only [Router.delete, User.delete, Knex.del]
  cases ht : db.users with
  | none => simpa only [ht] using h
  | some t =>
    have hv := h t ht
    simp only []
    cases hw : whereId db.client id with
    | error e => simpa only [ht] using h
    | ok p =>
      intro t1 e
      simp only [Option.some.injEq] at e
      subst e
      exact ⟨hv.ids.filter _, hv.names.filter _,
        fun r hr => hv.seq r (List.mem_filter.mp hr).1⟩

theorem maxId_append (rows : List UserRow) (row : UserRow) :
    maxId (rows ++ [row]) = if rows.isEmpty then row.id else max (maxId rows) row.id := by
  induction rows with
  | nil => simp [maxId]
  | cons a rest ih =>
    cases rest with
    | nil => simp [maxId]
    | cons b more =>
      have h1 : maxId (a :: b :: more ++ [row]) = max a.id (maxId (b :: more ++ [row])) := by
        simp [maxId]
      have h2 : maxId (a :: b :: more) = max a.id (maxId (b :: more)) := by
        simp [maxId]
      simp only [List.isEmpty_cons, Bool.false_eq_true, if_false] at ih ⊢
      rw [h1, ih, h2]
      exact (max_assoc _ _ _).symm

/-- After a row went in with the next `id`, the auto-increment hands out the `id` after it. -/
theorem nextId_after_insert (c : Client) (t : Table) (row : UserRow)
    (hrow : row.id = t.nextId c) :
    (Table.mk (t.rows ++ [row]) (t.nextId c)).nextId c = t.nextId c + 1 := by
  cases c with
  | sqlite3 =>
    have hl := le_max_right t.seq (maxId t.rows)
    simp only [Table.nextId] at hrow ⊢
    have hA : maxId (t.rows ++ [row]) ≤ max t.seq (maxId t.rows) + 1 := by
      rw [maxId_append]
      split
      · exact le_of_eq hrow
      · exact max_le (by omega) (le_of_eq hrow)
    rw [max_eq_left hA]
  | pg => rfl

/-! ## C1: create, then findById -/

/-- C1, where the code departs from it: on a migrated store without rows, `create` for alice
does not resolve with the inserted row but with the array that `returning("*")` yields, and
`POST /users` sends that array. -/
theorem C1_create_resolves_with_array :
    User.create emptyDb 5 ⟨none, .str "alice", .str "p1"⟩ =
      (⟨.sqlite3, some ⟨[⟨1, "alice", "p1", 5, 5⟩], 1⟩⟩, .ok [⟨1, "alice", "p1", 5, 5⟩]) ∧
    Router.post emptyDb 5 ⟨none, .str "alice", .str "p1"⟩ =
      (⟨.sqlite3, some ⟨[⟨1, "alice", "p1", 5, 5⟩], 1⟩⟩,
        .ok ⟨200, .array [⟨1, "alice", "p1", 5, 5⟩]⟩) := by
  decide

/-! ## C2: the same username twice -/

set_option maxRecDepth 20000 in
/-- C2, as stated, fails.  After alice was created on a migrated store without rows, a second
`POST /users` for alice ends in the store's uniqueness error, thrown out of the handler, and in
no 409 response.  Nor is there one success for every username and password: a username that is
taken gives none; pg refuses a string of 256 characters or with a NUL; either client refuses a
second row when the auto-increment has one `id` left; and pg refuses a row when the next value
of its sequence is an `id` that a row already holds. -/
theorem C2_second_post_is_uncaught_rejection :
    ((Router.post (Router.post emptyDb 5 ⟨none, .str "alice", .str "p1"⟩).1 6
        ⟨none, .str "alice", .str "p2"⟩).2 = .error .unique ∧
      ¬ ∃ body : Json,
        (Router.post (Router.post emptyDb 5 ⟨none, .str "alice", .str "p1"⟩).1 6
          ⟨none, .str "alice", .str "p2"⟩).2 = .ok ⟨409, body⟩) ∧
    (Router.post twoUsers 5 ⟨none, .str "alice", .str "p1"⟩).2 = .error .unique ∧
    (Router.post ⟨.pg, some ⟨[], 0⟩⟩ 5 ⟨none, .str longText, .str "p1"⟩).2
      = .error .dataException ∧
    (Router.post ⟨.pg, some ⟨[], 0⟩⟩ 5 ⟨none, .str "alice", .str nulText⟩).2
      = .error .dataException ∧
    (Router.post (Router.post ⟨.pg, some ⟨[], 2147483646⟩⟩ 5 ⟨none, .str "alice", .str "p1"⟩).1 6
        ⟨none, .str "alice", .str "p2"⟩).2 = .error .dataException ∧
    (Router.post (Router.post ⟨.sqlite3, some ⟨[], 9223372036854775806⟩⟩ 5
        ⟨none, .str "alice", .str "p1"⟩).1 6 ⟨none, .str "alice", .str "p2"⟩).2 = .error .full ∧
    (Router.post ⟨.pg, some ⟨[⟨1, "bob", "p2", 1, 1⟩], 0⟩⟩ 5 ⟨none, .str "alice", .str "p1"⟩).2
      = .error .unique := by
  have e : (Router.post (Router.post emptyDb 5 ⟨none, .str "alice", .str "p1"⟩).1 6
      ⟨none, .str "alice", .str "p2"⟩).2 = .error .unique := by decide
  refine ⟨⟨e, ?_⟩, by decide, by decide, by decide, by decide, by decide, by decide⟩
  rintro ⟨body, h⟩
  rw [e] at h
  cases h

/-- C2, amended: in a store with the `users` table where the auto-increment has two ids left
and the next one is held by no row, for every plain username `u` (at most 255 characters, no
NUL) that is not yet in the table and all plain passwords `p1`, `p2`, `POST /users` with `u`,
`p1` followed by `POST /users` with `u`, `p2` gives exactly one success: the first is answered
with status 200, the second is refused by the store with its uniqueness error, which the handler
does not catch (no response, hence no 409), and afterwards the table is the old one plus the
first row, with exactly one row of username `u`. -/
theorem C2_same_username_twice (db : Db) (t : Table) (now1 now2 : Nat) (u p1 p2 : String)
    (bid1 bid2 : Option Int)
    (ht : db.users = some t)
    (hroom : t.nextId db.client < db.client.maxRowId)
    (hnext : ∀ r ∈ t.rows, r.id ≠ t.nextId db.client)
    (hu : Plain u) (hp1 : Plain p1) (hp2 : Plain p2)
    (hfree : ∀ r ∈ t.rows, r.username ≠ u) :
    ∃ (row : UserRow) (db1 db2 : Db) (t2 : Table) (resp : Response),
      Router.post db now1 ⟨bid1, .str u, .str p1⟩ = (db1, .ok resp) ∧ resp.status = 200 ∧
      row.username = u ∧ row.password = p1 ∧
      Router.post db1 now2 ⟨bid2, .str u, .str p2⟩ = (db2, .error .unique) ∧
      db2.users = some t2 ∧ t2.rows = t.rows ++ [row] ∧
      (t2.rows.filter fun r => r.username == u).length = 1 := by
  have hc := create_free db t now1 u p1 ht (le_of_lt hroom) hnext hu hp1 hfree
  have hn := nextId_after_insert db.client t ⟨t.nextId db.client, u, p1, now1, now1⟩ rfl
  have hd := create_taken
    ⟨db.client, some ⟨t.rows ++ [⟨t.nextId db.client, u, p1, now1, now1⟩], t.nextId db.client⟩⟩
    ⟨t.rows ++ [⟨t.nextId db.client, u, p1, now1, now1⟩], t.nextId db.client⟩ now2 u p2 rfl
    (by rw [hn]; exact hroom) hu hp2
    ⟨⟨t.nextId db.client, u, p1, now1, now1⟩, by simp, rfl⟩
  have h1 : Router.post db now1 ⟨bid1, .str u, .str p1⟩ =
      (⟨db.client, some ⟨t.rows ++ [⟨t.nextId db.client, u, p1, now1, now1⟩], t.nextId db.client⟩⟩,
        .ok ⟨200, .array [⟨t.nextId db.client, u, p1, now1, now1⟩]⟩) := by
    simp only [Router.post, hc, res_json, Except.map]
  have h2 : Router.post
      ⟨db.client, some ⟨t.rows ++ [⟨t.nextId db.client, u, p1, now1, now1⟩], t.nextId db.client⟩⟩
      now2 ⟨bid2, .str u, .str p2⟩ =
      (⟨db.client, some ((Table.mk (t.rows ++ [⟨t.nextId db.client, u, p1, now1, now1⟩])
          (t.nextId db.client)).afterFailedInsert db.client ⟨none, .str u, .str p2⟩)⟩,
        .error .unique) := by
    simp only [Router.post, hd, Except.map]
  have hnil : (t.rows.filter fun r => r.username == u) = [] := by
    rw [List.filter_eq_nil_iff]
    intro r hr
    simpa using hfree r hr
  refine ⟨_, _, _, _, _, h1, rfl, rfl, rfl, h2, rfl, afterFailedInsert_rows _ _ _, ?_⟩
  rw [afterFailedInsert_rows]
  simp [List.filter_append, hnil]

/-- C2 at work: alice is posted twice to a migrated store without rows. -/
theorem C2_same_username_twice_witness :
    ∃ (row : UserRow) (db1 db2 : Db) (t2 : Table) (resp : Response),
      Router.post emptyDb 5 ⟨none, .str "alice", .str "p1"⟩ = (db1, .ok resp) ∧
      resp.status = 200 ∧ row.username = "alice" ∧ row.password = "p1" ∧
      Router.post db1 6 ⟨none, .str "alice", .str "p2"⟩ = (db2, .error .unique) ∧
      db2.users = some t2 ∧ t2.rows = [] ++ [row] ∧
      (t2.rows.filter fun r => r.username == "alice").length = 1 :=
  C2_same_username_twice emptyDb ⟨[], 0⟩ 5 6 "alice" "p1" "p2" none none rfl
    (by decide) (by decide) (by decide) (by decide) (by decide) (by decide)

/-! ## C3: create without username or password -/

set_option maxRecDepth 20000 in
/-- C3, as stated, fails: a body whose `username` and `password` are empty is not answered with
a client error, and the store does not stay as it was.  On a migrated store without rows the
handler answers 200 and the row is in the table; a body without `username` ends in the store's
NOT NULL error, thrown out of the handler.  What decides is the store alone: with an empty
username, pg still refuses a password of 256 characters, and no row goes in when the
auto-increment has no `id` left. -/
theorem C3_post_empty_fields_creates :
    Router.post emptyDb 5 ⟨none, .str "", .str ""⟩ =
      (⟨.sqlite3, some ⟨[⟨1, "", "", 5, 5⟩], 1⟩⟩, .ok ⟨200, .array [⟨1, "", "", 5, 5⟩]⟩) ∧
    (Router.post emptyDb 5 ⟨none, .str "", .str ""⟩).1 ≠ emptyDb ∧
    (Router.post emptyDb 5 ⟨none, .undefined, .str "p1"⟩).2 = .error .notNull ∧
    (Router.post ⟨.pg, some ⟨[], 0⟩⟩ 5 ⟨none, .str "", .str longText⟩).2
      = .error .dataException ∧
    (Router.post ⟨.sqlite3, some ⟨[], 9223372036854775807⟩⟩ 5 ⟨none, .str "", .str "p1"⟩).2
      = .error .full ∧
    (Router.post ⟨.pg, some ⟨[⟨1, "bob", "p2", 1, 1⟩], 0⟩⟩ 5 ⟨none, .str "", .str "p1"⟩).2
      = .error .unique ∧
    (Router.post ⟨.sqlite3, some ⟨[⟨1, "", "p2", 1, 1⟩], 1⟩⟩ 5 ⟨none, .str "", .str "p1"⟩).2
      = .error .unique := by
  decide

/-- C3, amended: the create handler validates nothing and hands `username` and `password` of
the body to `User.create`.  In a store with the `users` table: every response it sends has
status 200, never a client error; when either field is missing or null, the store refuses the
insert, the rejection is not caught by the handler (no response), and the rows of the table stay
as they were; and an empty string is a value like any other: with both fields plain strings
(at most 255 characters, no NUL), one or both empty, the username free, and an `id` left in the
auto-increment that no row holds, the row is inserted and the answer has status 200. -/
theorem C3_post_validates_nothing (db : Db) (t : Table) (now : Nat) (body : Body)
    (ht : db.users = some t) :
    (∀ resp, (Router.post db now body).2 = .ok resp → resp.status = 200) ∧
    ((∀ s, body.username ≠ .str s) ∨ (∀ s, body.password ≠ .str s) →
      ∃ e t1, (Router.post db now body).2 = .error e ∧
        (Router.post db now body).1.users = some t1 ∧ t1.rows = t.rows) ∧
    (∀ u p, body.username = .str u → body.password = .str p → (u = "" ∨ p = "") →
      Plain u → Plain p →
      t.nextId db.client ≤ db.client.maxRowId → (∀ r ∈ t.rows, r.id ≠ t.nextId db.client) →
      (∀ r ∈ t.rows, r.username ≠ u) →
      ∃ resp, Router.post db now body =
        (⟨db.client, some ⟨t.rows ++ [⟨t.nextId db.client, u, p, now, now⟩], t.nextId db.client⟩⟩,
          .ok resp) ∧ resp.status = 200) := by
  refine ⟨?_, ?_, ?_⟩
  · intro resp h
    simp only [Router.post] at h
    cases hc : (User.create db now ⟨none, body.username, body.password⟩).2 with
    | error e => rw [hc] at h; cases h
    | ok rows =>
      rw [hc] at h
      simp only [Except.map, res_json] at h
      cases h
      rfl
  · intro h
    obtain ⟨e, t1, he, ht1, hrows⟩ :=
      create_not_string db t now body.username body.password ht h
    refine ⟨e, t1, ?_, ?_, hrows⟩
    · simp only [Router.post, he, Except.map]
    · simpa only [Router.post] using ht1
  · intro u p hu hp _ hpu hpp hroom hnext hfree
    have hc := create_free db t now u p ht hroom hnext hpu hpp hfree
    exact ⟨⟨200, .array [⟨t.nextId db.client, u, p, now, now⟩]⟩,
      by simp only [Router.post, hu, hp, hc, Except.map, res_json], rfl⟩

/-- C3 at work: a body without `username`, and a body with an empty `username`, are posted to
the store of alice and bob. -/
theorem C3_post_validates_nothing_witness :
    (∀ resp, (Router.post twoUsers 12 ⟨none, .undefined, .str ""⟩).2 = .ok resp →
      resp.status = 200) ∧
    (∃ e t1, (Router.post twoUsers 12 ⟨none, .undefined, .str ""⟩).2 = .error e ∧
      (Router.post twoUsers 12 ⟨none, .undefined, .str ""⟩).1.users = some t1 ∧
      t1.rows = [⟨1, "alice", "p1", 10, 10⟩, ⟨2, "bob", "p2", 11, 11⟩]) ∧
    (∃ resp, Router.post twoUsers 12 ⟨none, .str "", .str "p3"⟩ =
      (⟨.sqlite3,
          some ⟨[⟨1, "alice", "p1", 10, 10⟩, ⟨2, "bob", "p2", 11, 11⟩, ⟨3, "", "p3", 12, 12⟩], 3⟩⟩,
        .ok resp) ∧ resp.status = 200) :=
  have h := C3_post_validates_nothing twoUsers
    ⟨[⟨1, "alice", "p1", 10, 10⟩, ⟨2, "bob", "p2", 11, 11⟩], 2⟩ 12
    ⟨none, .undefined, .str ""⟩ rfl
  have h3 := (C3_post_validates_nothing twoUsers
    ⟨[⟨1, "alice", "p1", 10, 10⟩, ⟨2, "bob", "p2", 11, 11⟩], 2⟩ 12
    ⟨none, .str "", .str "p3"⟩ rfl).2.2 "" "p3" rfl rfl (Or.inl rfl) (by decide) (by decide)
    (by decide) (by decide) (by decide)
  ⟨h.1, h.2.1 (Or.inl (by intro s hs; cases hs)), h3⟩

/-! ## C4: update by id -/

set_option maxRecDepth 20000 in
/-- C4, as stated, fails: not every patch within `username`, `password` is applied to an
existing row.  With alice (1) and bob (2) in the table, renaming bob to alice is refused by the
store with its uniqueness error, by `update` and by `PUT /users/2` alike, and nothing changes.
The same goes for a patch that holds null, for a patch that holds nothing, and under pg for a
username of 256 characters; and where no row has the id, pg does not answer "not found" for an
id beyond int4 but refuses it. -/
theorem C4_update_username_taken :
    User.update twoUsers (.int 2) ⟨none, .str "alice", .undefined⟩ = (twoUsers, .error .unique) ∧
    Router.put twoUsers (.int 2) ⟨none, .str "alice", .undefined⟩ = (twoUsers, .error .unique) ∧
    User.update twoUsers (.int 2) ⟨none, .null, .undefined⟩ = (twoUsers, .error .notNull) ∧
    User.update twoUsers (.int 2) ⟨none, .undefined, .undefined⟩
      = (twoUsers, .error .emptyUpdate) ∧
    User.update twoUsersPg (.int 2) ⟨none, .str longText, .undefined⟩
      = (twoUsersPg, .error .dataException) ∧
    User.update twoUsersPg (.int 2147483648) ⟨none, .str "zed", .undefined⟩
      = (twoUsersPg, .error .dataException) := by
  decide

/-- C4, amended: in a store with the `users` table (ids unique, as the primary key has it), for
every id `i` that the `id` column can hold and every patch that holds `username`, `password` or
both as plain strings (at most 255 characters, no NUL; none of them null, not both missing):
when a row has id `i` and the new username, if any, is not held by another row, `update(i,
patch)` and `PUT /users/i` complete (status 200), set exactly the fields present, leave the
absent field, the `id` and both timestamps at their prior values and put the new row in place of
the old one; when no row has id `i` they complete (status 200) and change nothing. -/
theorem C4_update_sets_present_fields (db : Db) (t : Table) (id : IdArg) (i : Int)
    (un pw : Val) (bid : Option Int)
    (ht : db.users = some t) (hpk : (t.rows.map UserRow.id).Nodup)
    (hs : id.spells = some i) (hin : db.client.holdsId i = true)
    (hun : un ≠ .null) (hpw : pw ≠ .null) (hne : un ≠ .undefined ∨ pw ≠ .undefined)
    (hup : ∀ s, un = .str s → Plain s) (hpp : ∀ s, pw = .str s → Plain s) :
    (∀ r ∈ t.rows, r.id = i → (∀ q ∈ t.rows, q.id ≠ i → un ≠ .str q.username) →
      ∃ (r1 : UserRow) (db1 : Db) (rows : List UserRow) (resp : Response),
        User.update db id ⟨none, un, pw⟩ = (db1, .ok rows) ∧
        r1.id = r.id ∧ r1.created_at = r.created_at ∧ r1.updated_at = r.updated_at ∧
        (∀ s, un = .str s → r1.username = s) ∧ (un = .undefined → r1.username = r.username) ∧
        (∀ s, pw = .str s → r1.password = s) ∧ (pw = .undefined → r1.password = r.password) ∧
        db1 = ⟨db.client, some ⟨t.rows.map fun x => if x.id = i then r1 else x, t.seq⟩⟩ ∧
        Router.put db id ⟨bid, un, pw⟩ = (db1, .ok resp) ∧ resp.status = 200) ∧
    ((∀ q ∈ t.rows, q.id ≠ i) →
      ∃ (rows : List UserRow) (resp : Response),
        User.update db id ⟨none, un, pw⟩ = (db, .ok rows) ∧
        Router.put db id ⟨bid, un, pw⟩ = (db, .ok resp) ∧ resp.status = 200) := by
  constructor
  · intro r hr hi hfree
    have h := update_found db t id i r un pw ht hpk hs hin hr hi hun hpw hne hup hpp hfree
    refine ⟨⟨r.id, un.getD r.username, pw.getD r.password, r.created_at, r.updated_at⟩, _, _,
      ⟨200, .array [⟨r.id, un.getD r.username, pw.getD r.password, r.created_at,
        r.updated_at⟩]⟩, h, rfl, rfl, rfl, ?_, ?_, ?_, ?_, rfl, ?_, rfl⟩
    · intro s hs; subst hs; rfl
    · intro hs; subst hs; rfl
    · intro s hs; subst hs; rfl
    · intro hs; subst hs; rfl
    · simp only [Router.put, h, Except.map, res_json]
  · intro hno
    have h := update_not_found db t id i un pw ht hs hin hne hup hpp hno
    refine ⟨_, ⟨200, .array []⟩, h, ?_, rfl⟩
    simp only [Router.put, h, Except.map, res_json]

/-- C4 at work: alice (1) is renamed to alice2, and the same patch is sent to id 9, which no
row has. -/
theorem C4_update_sets_present_fields_witness :
    (∃ (r1 : UserRow) (db1 : Db) (rows : List UserRow) (resp : Response),
        User.update twoUsers (.text "1") ⟨none, .str "alice2", .undefined⟩ = (db1, .ok rows) ∧
        r1.id = 1 ∧ r1.created_at = 10 ∧ r1.updated_at = 10 ∧
        (∀ s, Val.str "alice2" = .str s → r1.username = s) ∧
        (Val.str "alice2" = .undefined → r1.username = "alice") ∧
        (∀ s, Val.undefined = .str s → r1.password = s) ∧
        (Val.undefined = .undefined → r1.password = "p1") ∧
        db1 = ⟨twoUsers.client,
          some ⟨[(⟨1, "alice", "p1", 10, 10⟩ : UserRow), ⟨2, "bob", "p2", 11, 11⟩].map
            fun x => if x.id = 1 then r1 else x, 2⟩⟩ ∧
        Router.put twoUsers (.text "1") ⟨none, .str "alice2", .undefined⟩ = (db1, .ok resp) ∧
        resp.status = 200) ∧
    (∃ (rows : List UserRow) (resp : Response),
      User.update twoUsers (.int 9) ⟨none, .str "alice2", .undefined⟩ = (twoUsers, .ok rows) ∧
      Router.put twoUsers (.int 9) ⟨none, .str "alice2", .undefined⟩ = (twoUsers, .ok resp) ∧
      resp.status = 200) :=
  ⟨(C4_update_sets_present_fields twoUsers
      ⟨[⟨1, "alice", "p1", 10, 10⟩, ⟨2, "bob", "p2", 11, 11⟩], 2⟩ (.text "1") 1 (.str "alice2")
      .undefined none rfl (by decide) (by decide) (by decide) (by decide) (by decide) (by decide)
      (by intro s hs; cases hs; decide) (by intro s hs; cases hs)).1
      ⟨1, "alice", "p1", 10, 10⟩ (by decide) rfl (by decide),
    (C4_update_sets_present_fields twoUsers
      ⟨[⟨1, "alice", "p1", 10, 10⟩, ⟨2, "bob", "p2", 11, 11⟩], 2⟩ (.int 9) 9 (.str "alice2")
      .undefined none rfl (by decide) (by decide) (by decide) (by decide) (by decide) (by decide)
      (by intro s hs; cases hs; decide) (by intro s hs; cases hs)).2 (by decide)⟩

/-! ## C5: delete by id -/

/-- C5, as stated, fails: not in every store state and for every id does `delete` complete.
In a store without the `users` table it is refused, and so is `findById`; and pg refuses an id
beyond int4. -/
theorem C5_delete_rejected :
    User.delete ⟨.sqlite3, none⟩ (.int 1) = (⟨.sqlite3, none⟩, .error .noSuchTable) ∧
    User.findById ⟨.sqlite3, none⟩ (.int 1) = (⟨.sqlite3, none⟩, .error .noSuchTable) ∧
    User.delete twoUsersPg (.int 2147483648) = (twoUsersPg, .error .dataException) := by
  decide

/-- C5, amended: in a store with the `users` table, for every id `i` that the `id` column can
hold, `delete(i)` resolves with the number of rows it removed, which is positive iff a row with
id `i` existed, and leaves the table without the rows of that id; `findById(i)` then yields
"not found" (`undefined`, which `GET /users/i` sends with status 200), and a second `delete(i)`
resolves with 0 and changes nothing. -/
theorem C5_delete_then_findById (db : Db) (t : Table) (id : IdArg) (i : Int)
    (ht : db.users = some t)
    (hs : id.spells = some i) (hin : db.client.holdsId i = true) :
    ∃ (n : Nat) (db1 : Db),
      User.delete db id = (db1, .ok n) ∧
      (0 < n ↔ ∃ r ∈ t.rows, r.id = i) ∧
      db1 = ⟨db.client, some ⟨t.rows.filter fun r => r.id ≠ i, t.seq⟩⟩ ∧
      User.findById db1 id = (db1, .ok none) ∧
      User.delete db1 id = (db1, .ok 0) ∧
      Router.get db1 id = (db1, .ok ⟨200, .undefined⟩) := by
  have hw := whereId_of_spells db.client id i hs hin
  have hrest : (t.rows.filter fun r => !(r.id == i)) = t.rows.filter fun r => r.id ≠ i := by
    apply List.filter_congr
    intro x _
    by_cases h : x.id = i <;> simp [h]
  have h1 : User.delete db id =
      (⟨db.client, some ⟨t.rows.filter fun r => r.id ≠ i, t.seq⟩⟩,
        .ok (t.rows.filter fun r => r.id == i).length) := by
    simp only [User.delete, Knex.del, ht, hw, hrest]
  have hfind : (t.rows.filter fun r => r.id ≠ i).find? (fun r => r.id == i) = none := by
    rw [List.find?_eq_none]
    intro x hx
    have := (List.mem_filter.mp hx).2
    simpa using this
  have hgone : ((t.rows.filter fun r => r.id ≠ i).filter fun r => r.id == i) = [] := by
    rw [List.filter_eq_nil_iff]
    intro x hx
    have := (List.mem_filter.mp hx).2
    simpa using this
  have hsame : ((t.rows.filter fun r => r.id ≠ i).filter fun r => !(r.id == i))
      = t.rows.filter fun r => r.id ≠ i := by
    rw [List.filter_eq_self]
    intro x hx
    have := (List.mem_filter.mp hx).2
    simpa using this
  have h2 : User.findById ⟨db.client, some ⟨t.rows.filter fun r => r.id ≠ i, t.seq⟩⟩ id
      = (⟨db.client, some ⟨t.rows.filter fun r => r.id ≠ i, t.seq⟩⟩, .ok none) := by
    simp only [User.findById, Knex.first, hw, hfind]
  have h3 : User.delete ⟨db.client, some ⟨t.rows.filter fun r => r.id ≠ i, t.seq⟩⟩ id
      = (⟨db.client, some ⟨t.rows.filter fun r => r.id ≠ i, t.seq⟩⟩, .ok 0) := by
    simp only [User.delete, Knex.del, hw, hgone, hsame, List.length_nil]
  refine ⟨_, _, h1, ?_, rfl, h2, h3, ?_⟩
  · rw [List.length_pos, ne_eq, List.filter_eq_nil_iff]
    simp
  · simp only [Router.get, h2, Except.map, res_json, Json.ofOption]

/-- C5 at work: alice (1) is deleted from the store of alice and bob. -/
theorem C5_delete_then_findById_witness :
    ∃ (n : Nat) (db1 : Db),
      User.delete twoUsers (.text "1") = (db1, .ok n) ∧
      (0 < n ↔ ∃ r ∈ [(⟨1, "alice", "p1", 10, 10⟩ : UserRow), ⟨2, "bob", "p2", 11, 11⟩],
        r.id = 1) ∧
      db1 = ⟨twoUsers.client,
        some ⟨[(⟨1, "alice", "p1", 10, 10⟩ : UserRow), ⟨2, "bob", "p2", 11, 11⟩].filter
          fun r => r.id ≠ 1, 2⟩⟩ ∧
      User.findById db1 (.text "1") = (db1, .ok none) ∧
      User.delete db1 (.text "1") = (db1, .ok 0) ∧
      Router.get db1 (.text "1") = (db1, .ok ⟨200, .undefined⟩) :=
  C5_delete_then_findById twoUsers ⟨[⟨1, "alice", "p1", 10, 10⟩, ⟨2, "bob", "p2", 11, 11⟩], 2⟩
    (.text "1") 1 rfl (by decide) (by decide)

/-! ## C6: findById of an id that no row has -/

/-- C6, as stated, fails under pg: with alice (1) and bob (2) in the table, `findById` of
2147483648, an id that no row has, does not yield "not found": the store refuses an id beyond
int4, and the rejection leaves `GET /users/2147483648` uncaught. -/
theorem C6_findById_beyond_int4 :
    User.findById twoUsersPg (.int 2147483648) = (twoUsersPg, .error .dataException) ∧
    Router.get twoUsersPg (.text "2147483648") = (twoUsersPg, .error .dataException) := by
  decide

/-- C6, amended: in a store with the `users` table, for every id `i` that the `id` column can
hold (an int4 under pg) and that no row has, `findById(i)` resolves, with the "not found" value
`undefined`, and leaves the store as it was; `GET /users/i` answers 200 with that value. -/
theorem C6_findById_absent (db : Db) (t : Table) (id : IdArg) (i : Int)
    (ht : db.users = some t)
    (hs : id.spells = some i) (hin : db.client.holdsId i = true)
    (hno : ∀ r ∈ t.rows, r.id ≠ i) :
    User.findById db id = (db, .ok none) ∧
    Router.get db id = (db, .ok ⟨200, .undefined⟩) := by
  have hw := whereId_of_spells db.client id i hs hin
  have hfind : t.rows.find? (fun r => r.id == i) = none := by
    rw [List.find?_eq_none]
    intro x hx
    simpa using hno x hx
  have h : User.findById db id = (db, .ok none) := by
    simp only [User.findById, Knex.first, ht, hw, hfind]
  refine ⟨h, ?_⟩
  simp only [Router.get, h, Except.map, res_json, Json.ofOption]

/-- C6 at work: id 3 is looked up in the store of alice (1) and bob (2). -/
theorem C6_findById_absent_witness :
    User.findById twoUsers (.text "3") = (twoUsers, .ok none) ∧
    Router.get twoUsers (.text "3") = (twoUsers, .ok ⟨200, .undefined⟩) :=
  C6_findById_absent twoUsers ⟨[⟨1, "alice", "p1", 10, 10⟩, ⟨2, "bob", "p2", 11, 11⟩], 2⟩
    (.text "3") 3 rfl (by decide) (by decide) (by decide)

/-! ## C7: the migration on a migrated store -/

/-- C7, as stated, fails: on a migrated store `exports.up` fails with the store's
duplicate-table error. -/
theorem C7_up_twice_table_exists :
    Migration.up (Migration.up ⟨.sqlite3, none⟩).1 = (emptyDb, .error .tableExists) ∧
    Migration.up twoUsers = (twoUsers, .error .tableExists) := by
  decide

/-- C7, amended: `exports.up` does not look whether `users` is there.  Applied to a store that
already has the table it is refused by the store with the duplicate-table error, and the table
and its rows are left unchanged; applied to a store without the table it creates the table,
empty. -/
theorem C7_up_on_migrated_store (db : Db) :
    (∀ t, db.users = some t → Migration.up db = (db, .error .tableExists)) ∧
    (db.users = none → Migration.up db = (⟨db.client, some ⟨[], 0⟩⟩, .ok ())) := by
  constructor
  · intro t ht
    simp only [Migration.up, Knex.createTable, ht]
  · intro ht
    simp only [Migration.up, Knex.createTable, ht]

/-- C7 at work: the migration is applied to the store of alice and bob. -/
theorem C7_up_on_migrated_store_witness :
    Migration.up twoUsers = (twoUsers, .error .tableExists) :=
  (C7_up_on_migrated_store twoUsers).1 _ rfl

/-! ## C8: update with an empty patch -/

/-- C8, as stated, fails: with alice (1) in the table, `update(1, {})` does not complete: knex
throws on an update without values, and so does `PUT /users/1` with a body that holds neither
`username` nor `password`; no row is returned. -/
theorem C8_empty_patch_rejected :
    User.update twoUsers (.int 1) ⟨none, .undefined, .undefined⟩
      = (twoUsers, .error .emptyUpdate) ∧
    Router.put twoUsers (.int 1) ⟨none, .undefined, .undefined⟩
      = (twoUsers, .error .emptyUpdate) := by
  decide

/-- C8, amended: for every store and every id, `update(id, {})` with an empty patch, and
`PUT /users/id` with a body holding neither `username` nor `password`, is refused while the
statement is compiled (knex throws its empty-update error, which the handler does not catch);
nothing reaches the store, so every row, `username` and `password` of row `id` included, stays
as it was, and no row is returned. -/
theorem C8_empty_patch_leaves_store (db : Db) (id : IdArg) (bid : Option Int) :
    User.update db id ⟨none, .undefined, .undefined⟩ = (db, .error .emptyUpdate) ∧
    Router.put db id ⟨bid, .undefined, .undefined⟩ = (db, .error .emptyUpdate) := by
  constructor
  · rfl
  · rfl

/-! ## C9: a path id that is no number -/

/-- C9, as stated, fails: a malformed path id is not answered with a client error.  With
sqlite3, `GET /users/abc` answers 200 with `undefined`, the result of `findById`; with pg,
`DELETE /users/abc` ends in the rejection of the store, which was handed the text as the
`id`. -/
theorem C9_malformed_id_no_client_error :
    Router.get twoUsers (.text "abc") = (twoUsers, .ok ⟨200, .undefined⟩) ∧
    Router.delete twoUsersPg (.text "abc") = (twoUsersPg, .error .dataException) := by
  decide

/-- C9, amended: the handlers of `GET`, `PUT` and `DELETE /users/:id` validate nothing and hand
the path id to `findById`, `update` and `delete` as it is.  In a store with the `users` table,
for a path id without any digit (which no client takes for a number): under sqlite3 the text
equals no `id`, so `GET` answers 200 with `undefined`, and `DELETE` and `PUT` (with a body that
holds a value, its strings plain) answer 200 as well; under pg the store refuses the text and
the rejection leaves the handler uncaught.  In both cases the store is left as it was and no
client-error response is sent. -/
theorem C9_malformed_id_reaches_store (db : Db) (t : Table) (s : String) (body : Body)
    (ht : db.users = some t)
    (hs : s.data.all (fun c => !c.isDigit) = true) :
    (db.client = .sqlite3 →
      Router.get db (.text s) = (db, .ok ⟨200, .undefined⟩) ∧
      (∃ resp, Router.delete db (.text s) = (db, .ok resp) ∧ resp.status = 200) ∧
      (body.username ≠ .undefined ∨ body.password ≠ .undefined →
        (∀ u, body.username = .str u → Plain u) → (∀ p, body.password = .str p → Plain p) →
        ∃ resp, Router.put db (.text s) body = (db, .ok resp) ∧ resp.status = 200)) ∧
    (db.client = .pg →
      Router.get db (.text s) = (db, .error .dataException) ∧
      Router.delete db (.text s) = (db, .error .dataException) ∧
      (body.username ≠ .undefined ∨ body.password ≠ .undefined →
        Router.put db (.text s) body = (db, .error .dataException))) := by
  obtain ⟨hlite, hpg⟩ := reads_no_digit s hs
  obtain ⟨c, users⟩ := db
  simp only at ht
  subst ht
  constructor
  · intro hc
    simp only at hc
    subst hc
    have hw : whereId .sqlite3 (.text s) = .ok fun _ => false := by
      simp only [whereId, hlite]
      congr 1
    have hf : t.rows.find? (fun _ => false) = none := by
      rw [List.find?_eq_none]
      intro x _ hx
      cases hx
    refine ⟨?_, ?_, ?_⟩
    · simp [Router.get, User.findById, Knex.first, hw, Except.map, res_json, Json.ofOption, hf]
    · exact ⟨⟨200, .number 0⟩,
        by simp [Router.delete, User.delete, Knex.del, hw, Except.map, res_json], rfl⟩
    · intro hb hup hpp
      have hempty : Knex.emptyUpdate ⟨none, body.username, body.password⟩ = false := by
        cases hu : body.username <;> cases hp : body.password <;>
          simp_all [Knex.emptyUpdate, Val.isUndefined]
      exact ⟨⟨200, .array []⟩,
        by simp [Router.put, User.update, Knex.update, hempty, hw, Except.map, res_json,
          fits_of_plain _ _ hup, fits_of_plain _ _ hpp, idFits], rfl⟩
  · intro hc
    simp only at hc
    subst hc
    have hw : whereId .pg (.text s) = .error .dataException := by
      simp only [whereId, hpg]
    refine ⟨?_, ?_, ?_⟩
    · simp [Router.get, User.findById, Knex.first, hw, Except.map]
    · simp [Router.delete, User.delete, Knex.del, hw, Except.map]
    · intro hb
      have hempty : Knex.emptyUpdate ⟨none, body.username, body.password⟩ = false := by
        cases hu : body.username <;> cases hp : body.password <;>
          simp_all [Knex.emptyUpdate, Val.isUndefined]
      simp only [Router.put, User.update, Knex.update, hempty, hw, idFits, Client.textError]
      split <;> simp_all [Except.map]

/-- C9 at work: the path id `abc` is sent to the sqlite3 store of alice and bob. -/
theorem C9_malformed_id_reaches_store_witness :
    Router.get twoUsers (.text "abc") = (twoUsers, .ok ⟨200, .undefined⟩) ∧
    (∃ resp, Router.delete twoUsers (.text "abc") = (twoUsers, .ok resp) ∧ resp.status = 200) ∧
    (∃ resp, Router.put twoUsers (.text "abc") ⟨none, .str "zed", .undefined⟩
      = (twoUsers, .ok resp) ∧ resp.status = 200) :=
  have h := (C9_malformed_id_reaches_store twoUsers
    ⟨[⟨1, "alice", "p1", 10, 10⟩, ⟨2, "bob", "p2", 11, 11⟩], 2⟩ "abc"
    ⟨none, .str "zed", .undefined⟩ rfl (by decide)).1 rfl
  ⟨h.1, h.2.1, h.2.2 (by decide) (by intro u hu; cases hu; decide) (by intro p hp; cases hp)⟩

/-! ## C10: the id of a row under update -/

/-- C10, as stated, fails.  At the repository a patch that carries `id` rewrites the `id` of
the matching row: with alice (1) and bob (2) in the table, `update(1, {id: 7})` leaves alice
with id 7.  And a row is not safe because its id differs from the path id as a text: sqlite3
reads the path id `1.0` as the number 1, so `PUT /users/1.0` rewrites alice. -/
theorem C10_update_rewrites_id :
    User.update twoUsers (.int 1) ⟨some 7, .undefined, .undefined⟩ =
      (⟨.sqlite3, some ⟨[⟨7, "alice", "p1", 10, 10⟩, ⟨2, "bob", "p2", 11, 11⟩], 2⟩⟩,
        .ok [⟨7, "alice", "p1", 10, 10⟩]) ∧
    (User.update twoUsers (.int 1) ⟨some 7, .undefined, .undefined⟩).1.rows.map UserRow.id
      ≠ twoUsers.rows.map UserRow.id ∧
    (Router.put twoUsers (.text "1.0") ⟨none, .str "zed", .undefined⟩).1 =
      ⟨.sqlite3, some ⟨[⟨1, "zed", "p1", 10, 10⟩, ⟨2, "bob", "p2", 11, 11⟩], 2⟩⟩ := by
  decide

/-- C10, amended: for every store, every path id and every body of `PUT /users/:id` whose
`username` and `password` are strings, null or missing, a body with an `id` field of its own
included (the handler passes on `username` and `password` only), the rows after the request are
the rows before it, one for one and each with its `id` unchanged; and when the path id spells an
integer `i` that the `id` column can hold, each row whose id differs from `i` is entirely
unchanged.  At the repository the same holds for `update(i, patch)` with every patch whose keys
are among `username` and `password`. -/
theorem C10_put_keeps_ids (db : Db) (id : IdArg) (body : Body) (un pw : Val) :
    ((Router.put db id body).1.rows.map UserRow.id = db.rows.map UserRow.id ∧
      ∀ i, id.spells = some i → db.client.holdsId i = true →
        List.Forall₂ (fun r r1 : UserRow => r.id ≠ i → r1 = r)
          db.rows (Router.put db id body).1.rows) ∧
    ((User.update db id ⟨none, un, pw⟩).1.rows.map UserRow.id = db.rows.map UserRow.id ∧
      ∀ i, id.spells = some i → db.client.holdsId i = true →
        List.Forall₂ (fun r r1 : UserRow => r.id ≠ i → r1 = r)
          db.rows (User.update db id ⟨none, un, pw⟩).1.rows) :=
  ⟨⟨update_keeps_ids db id body.username body.password,
      fun i hs hin => update_keeps_others db id body.username body.password i hs hin⟩,
    ⟨update_keeps_ids db id un pw, fun i hs hin => update_keeps_others db id un pw i hs hin⟩⟩

/-- C10 at work: `PUT /users/1` with a new username and an `id` of its own is sent to the store
of alice (1) and bob (2). -/
theorem C10_put_keeps_ids_witness :
    (Router.put twoUsers (.text "1") ⟨some 7, .str "zed", .undefined⟩).1.rows.map UserRow.id
      = twoUsers.rows.map UserRow.id ∧
    List.Forall₂ (fun r r1 : UserRow => r.id ≠ 1 → r1 = r)
      twoUsers.rows (Router.put twoUsers (.text "1") ⟨some 7, .str "zed", .undefined⟩).1.rows :=
  have h := (C10_put_keeps_ids twoUsers (.text "1") ⟨some 7, .str "zed", .undefined⟩
    .undefined .undefined).1
  ⟨h.1, h.2 1 (by decide) (by decide)⟩

end UserService
